import Mathlib

/-!
Shallow embedding of HelioCAD.py and verification of its specification.

The embedding covers the `Canvas` geometry model (grid snapping, the
mouse-driven draw state machine, shape rendering), the file codec
(`save_hcad`, `load_hcad`, `export_svg`) and the `PluginLoader`
(enable/disable of plugin tabs and the startup reconciliation loop).

Coordinates are modelled as exact rationals; the Python float
arithmetic involved in every property below is exact on the values
considered.
-/

namespace HelioCAD

/-- Planar point with rational coordinates, modelling `QPointF`. -/
abbrev Point := ℚ × ℚ

/-- Grid size constant, `GRID_SIZE = 20` (HelioCAD.py line 15). -/
def GRID_SIZE : ℚ := 20

/-- Python built-in `round` on an exact value: round to the nearest
integer, with ties going to the even integer (round half to even). -/
def pyRound (q : ℚ) : ℤ :=
  if q - ⌊q⌋ < 1/2 then ⌊q⌋
  else if 1/2 < q - ⌊q⌋ then ⌊q⌋ + 1
  else if ⌊q⌋ % 2 = 0 then ⌊q⌋ else ⌊q⌋ + 1

/-- One coordinate of `Canvas.snap` (lines 92-93):
`round(coord / GRID_SIZE) * GRID_SIZE`. -/
def snap1 (x : ℚ) : ℚ := (pyRound (x / GRID_SIZE) : ℚ) * GRID_SIZE

/-- `Canvas.snap` (lines 91-94): each coordinate is snapped
independently. -/
def snap (p : Point) : Point := (snap1 p.1, snap1 p.2)

/-- A committed shape: the tuple `(tool, start, end)` appended by
`mouseReleaseEvent` and rebuilt by `load_hcad`. -/
abbrev Shape := String × Point × Point

/-- The mutable state of `Canvas.__init__` (lines 19-27) that the
drawing and file operations read and write. -/
structure Canvas where
  shapes : List Shape
  current_tool : String
  drawing : Bool
  start_point : Option Point
  end_point : Option Point
deriving DecidableEq

/-- `Canvas.mousePressEvent` (lines 33-36): on a left-button press,
set `drawing` and record the snapped press position as the start
point; other buttons do nothing. -/
def mousePressEvent (c : Canvas) (left : Bool) (pos : Point) : Canvas :=
  if left then
    { c with drawing := true, start_point := some (snap pos) }
  else c

/-- `Canvas.mouseMoveEvent` (lines 38-41): only while `drawing`,
record the snapped cursor position as the end point. -/
def mouseMoveEvent (c : Canvas) (pos : Point) : Canvas :=
  if c.drawing then { c with end_point := some (snap pos) } else c

/-- `Canvas.mouseReleaseEvent` (lines 43-49): only while `drawing`,
append `(current_tool, start_point, snapped release position)` to
`shapes` and reset the draw state. The `none` branch is unreachable
from any state the events produce: `drawing` becomes true only in
`mousePressEvent`, which sets `start_point` at the same time. -/
def mouseReleaseEvent (c : Canvas) (pos : Point) : Canvas :=
  if c.drawing then
    match c.start_point with
    | some s =>
        { c with shapes := c.shapes ++ [(c.current_tool, s, snap pos)],
                 drawing := false, start_point := none, end_point := none }
    | none => c
  else c

/-- `QPointF.manhattanLength` of a componentwise difference:
the sum of the absolute values of the coordinates. -/
def manhattanLength (p : Point) : ℚ := |p.1| + |p.2|

/-- `Canvas.rect_from_points` (lines 86-89). -/
def rect_from_points (p1 p2 : Point) : ℚ × ℚ × ℚ × ℚ :=
  (min p1.1 p2.1, min p1.2 p2.2, |p2.1 - p1.1|, |p2.2 - p1.2|)

/-- The primitive a `draw_shape` call hands to the painter. -/
inductive Rendered where
  | lineR (a b : Point)
  | rectR (x y w h : ℚ)
  | circleR (center : Point) (radius : ℚ)
deriving DecidableEq

/-- `Canvas.draw_shape` (lines 76-84): for the circle tool the radius
is `(start - end).manhattanLength()`; unknown tools draw nothing. -/
def draw_shape (tool : String) (s e : Point) : Option Rendered :=
  if tool = "line" then some (.lineR s e)
  else if tool = "rectangle" then
    let r := rect_from_points s e
    some (.rectR r.1 r.2.1 r.2.2.1 r.2.2.2)
  else if tool = "circle" then
    some (.circleR s (manhattanLength (s.1 - e.1, s.2 - e.2)))
  else none

/-- One JSON object of an `.hcad` file. A field is `none` when the
key is absent from the object; a present coordinate field is a JSON
array of numbers of any length. -/
structure Record where
  tool : Option String
  start : Option (List ℚ)
  «end» : Option (List ℚ)
deriving DecidableEq

/-- `QPointF(*coords)` in PyQt6: zero arguments build the origin, two
arguments build the point, and any other argument count raises
`TypeError`. -/
def qpointOfArgs (coords : List ℚ) : Option Point :=
  match coords with
  | [] => some (0, 0)
  | [x, y] => some (x, y)
  | _ => none

/-- The body of one `load_hcad` loop iteration (lines 129-132):
`item["tool"]` / `item["start"]` / `item["end"]` raise `KeyError` when
the key is absent (modelled as `none`), and the `QPointF(*...)` calls
can raise `TypeError`. The tool string is never inspected. -/
def parseRecord (r : Record) : Option Shape :=
  match r.tool, r.start, r.«end» with
  | some t, some s, some e =>
    match qpointOfArgs s, qpointOfArgs e with
    | some ps, some pe => some (t, ps, pe)
    | _, _ => none
  | _, _, _ => none

/-- The `load_hcad` loop (lines 128-132): shapes parsed so far are
already in `self.shapes` when a later record raises, so on failure the
accumulated list is kept and the flag is `false`. -/
def loadGo (acc : List Shape) : List Record → List Shape × Bool
  | [] => (acc, true)
  | r :: rs =>
    match parseRecord r with
    | some s => loadGo (acc ++ [s]) rs
    | none => (acc, false)

/-- `Canvas.load_hcad` (lines 124-133): `self.shapes = []` runs before
the loop, so the prior document is discarded unconditionally; the
returned flag is `false` when an exception escaped mid-loop. -/
def load_hcad (c : Canvas) (records : List Record) : Canvas × Bool :=
  let p := loadGo [] records
  ({ c with shapes := p.1 }, p.2)

/-- `Canvas.save_hcad` (lines 113-122): one record per shape, in
document order. -/
def save_hcad (shapes : List Shape) : List Record :=
  shapes.map fun sh =>
    { tool := some sh.1,
      start := some [sh.2.1.1, sh.2.1.2],
      «end» := some [sh.2.2.1, sh.2.2.2] }

/-- The longest parsed initial segment of a record list, up to the
first malformed record. -/
def parsedInit : List Record → List Shape
  | [] => []
  | r :: rs =>
    match parseRecord r with
    | some s => s :: parsedInit rs
    | none => []

/-- One element of the exported SVG document. -/
inductive SvgElem where
  | lineE (p1 p2 : Point)
  | rectE (insertPt sizePt : Point)
  | circleE (center : Point) (r : ℝ)

/-- The circle radius written by `Canvas.export_svg` (line 109):
`((x2 - x1)**2 + (y2 - y1)**2)**0.5`, the real square root of the
rational sum of squares. -/
noncomputable def exportRadius (s e : Point) : ℝ :=
  Real.sqrt (((e.1 - s.1) ^ 2 + (e.2 - s.2) ^ 2 : ℚ) : ℝ)

/-- `Canvas.export_svg` (lines 96-111): one SVG element per shape in
document order; shapes with an unknown tool emit nothing. -/
noncomputable def export_svg (shapes : List Shape) : List SvgElem :=
  shapes.filterMap fun sh =>
    let t := sh.1
    let s := sh.2.1
    let e := sh.2.2
    if t = "line" then some (.lineE s e)
    else if t = "rectangle" then
      some (.rectE (min s.1 e.1, min s.2 e.2) (|e.1 - s.1|, |e.2 - s.2|))
    else if t = "circle" then
      some (.circleE s (exportRadius s e))
    else none

/-- One entry of the host `QTabWidget`: the fixed canvas tab added in
`HelioCAD.__init__` (line 267) or a plugin widget. Distinct plugins
hold distinct widgets, so a plugin widget is identified by its name. -/
inductive Tab where
  | core
  | plug (name : String)
deriving DecidableEq

/-- The `PluginLoader` state (lines 194-201) together with the tab
container it mutates: `plugins` and `plugin_widgets` are the key sets
of the two dictionaries, in insertion order. -/
structure Loader where
  plugins : List String
  plugin_widgets : List String
  tabs : List Tab
deriving DecidableEq

/-- `PluginLoader.enable_plugin` (lines 238-244): only for a name with
a registered widget, and only when `_tab_for_plugin` finds no existing
tab for it, append the widget as a new tab. -/
def enable_plugin (L : Loader) (name : String) : Loader :=
  if name ∈ L.plugin_widgets then
    if Tab.plug name ∈ L.tabs then L
    else { L with tabs := L.tabs ++ [Tab.plug name] }
  else L

/-- `PluginLoader.disable_plugin` (lines 246-252): only for a name
with a registered widget, remove the first tab holding its widget;
`indexOf` returning `-1` means no removal. -/
def disable_plugin (L : Loader) (name : String) : Loader :=
  if name ∈ L.plugin_widgets then
    { L with tabs := L.tabs.erase (Tab.plug name) }
  else L

/-- The startup reconciliation loop of `HelioCAD.__init__` (lines
312-316): for each loaded plugin name in order, enable it when it is
in the persisted `enabled_modules` list, otherwise disable it. -/
def reconcile (L : Loader) (names : List String) (enabled : List String) : Loader :=
  match names with
  | [] => L
  | n :: rest =>
    reconcile (if n ∈ enabled then enable_plugin L n else disable_plugin L n) rest enabled

/-- The tab state after `HelioCAD.__init__`: the tab container starts
with only the core canvas tab (line 267), `load_plugins_from_folder`
never touches tabs, and then the reconciliation loop runs. -/
def startup (plugins plugin_widgets enabled : List String) : Loader :=
  reconcile
    { plugins := plugins, plugin_widgets := plugin_widgets, tabs := [Tab.core] }
    plugins enabled

/-- Python `round` of an integer value is that integer. -/
theorem pyRound_intCast (n : ℤ) : pyRound (n : ℚ) = n := by
  simp [pyRound]

/-- Python `round` lands within one half of its argument. -/
theorem abs_sub_pyRound_le (q : ℚ) : |q - (pyRound q : ℚ)| ≤ 1/2 := by
  have h0 : (⌊q⌋ : ℚ) ≤ q := Int.floor_le q
  have h1 : q < ⌊q⌋ + 1 := Int.lt_floor_add_one q
  unfold pyRound
  split_ifs with hlt hgt hev
  all_goals push_neg at *
  all_goals rw [abs_le]
  all_goals push_cast
  all_goals constructor <;> linarith

/-- A snapped coordinate is within half a grid cell of the input. -/
theorem abs_sub_snap1_le (q : ℚ) : |q - snap1 q| ≤ GRID_SIZE / 2 := by
  have h := abs_sub_pyRound_le (q / GRID_SIZE)
  unfold snap1 GRID_SIZE at *
  rw [abs_le] at *
  obtain ⟨ha, hb⟩ := h
  constructor <;> linarith

/-- A coordinate exactly halfway between two grid multiples snaps to
the even multiple, the tie rule of Python rounding. -/
theorem snap1_tie (n : ℤ) : snap1 (GRID_SIZE * n + GRID_SIZE / 2) =
    if n % 2 = 0 then GRID_SIZE * n else GRID_SIZE * (n + 1) := by
  have hdiv : (GRID_SIZE * n + GRID_SIZE / 2) / GRID_SIZE = (n : ℚ) + 1/2 := by
    unfold GRID_SIZE; ring
  have hfl : ⌊(n : ℚ) + 1/2⌋ = n := by
    rw [add_comm, Int.floor_add_int]
    norm_num
  unfold snap1 pyRound
  rw [hdiv, hfl]
  norm_num
  split_ifs with h
  · unfold GRID_SIZE; ring
  · unfold GRID_SIZE; ring

/-- Snapping a single coordinate twice equals snapping it once. -/
theorem snap1_idem (q : ℚ) : snap1 (snap1 q) = snap1 q := by
  unfold snap1
  have hq : ((pyRound (q / GRID_SIZE) : ℚ) * GRID_SIZE) / GRID_SIZE
      = (pyRound (q / GRID_SIZE) : ℚ) := by
    unfold GRID_SIZE; ring
  rw [hq, pyRound_intCast]

/-- C3 counterexample: the code snaps the point (10, 10) to (0, 0),
not to (20, 20): Python `round(0.5)` is 0, so a coordinate exactly
halfway between two grid multiples does not round to the larger
multiple as the claim states. -/
theorem snap_ten_counterexample : snap (10, 10) = (0, 0) ∧ (0 : ℚ) ≠ 20 := by
  constructor
  · unfold snap snap1 GRID_SIZE pyRound
    norm_num
  · norm_num

/-- C3 (amended): `snap` rounds each coordinate independently to a
multiple of the grid size that is within half a grid cell of the
input (hence the nearest multiple), but a coordinate exactly halfway
between two multiples rounds to the even multiple (Python round half
to even), so the coordinate 10 snaps to 0 and 30 snaps to 40. -/
theorem snap_nearest_multiple_ties_even :
    (∀ p : Point, snap p = (snap1 p.1, snap1 p.2)) ∧
    (∀ q : ℚ, (∃ n : ℤ, snap1 q = n * GRID_SIZE) ∧ |q - snap1 q| ≤ GRID_SIZE / 2) ∧
    (∀ n : ℤ, snap1 (GRID_SIZE * n + GRID_SIZE / 2) =
      if n % 2 = 0 then GRID_SIZE * n else GRID_SIZE * (n + 1)) ∧
    snap (10, 10) = (0, 0) ∧ snap1 30 = 40 := by
  refine ⟨fun p => rfl, fun q => ⟨⟨pyRound (q / GRID_SIZE), rfl⟩, abs_sub_snap1_le q⟩,
    snap1_tie, ?_, ?_⟩
  · unfold snap snap1 GRID_SIZE pyRound
    norm_num
  · unfold snap1 GRID_SIZE pyRound
    norm_num

/-- C9: `snap` is idempotent: snapping an already snapped point
changes nothing. -/
theorem snap_idempotent (p : Point) : snap (snap p) = snap p := by
  unfold snap
  rw [snap1_idem, snap1_idem]

/-- C2 counterexample: the live-preview radius for a circle from
(0, 0) to (3, 4) is 7, the Manhattan length |dx| + |dy|, not the
claimed max(|dx|, |dy|) = 4. -/
theorem preview_radius_counterexample :
    draw_shape "circle" (0, 0) (3, 4) = some (Rendered.circleR (0, 0) 7) ∧
    max |(3 : ℚ) - 0| |(4 : ℚ) - 0| = 4 ∧ (7 : ℚ) ≠ 4 := by
  refine ⟨?_, by norm_num, by norm_num⟩
  unfold draw_shape manhattanLength
  simp only [String.reduceEq, reduceIte]
  norm_num

/-- C2 (amended): the on-screen live-preview radius of a circle shape
is the Manhattan length |x2 - x1| + |y2 - y1| of the start-to-end
difference; for start (0, 0) and end (3, 4) it is 7.0. -/
theorem preview_radius_manhattan :
    (∀ s e : Point, draw_shape "circle" s e =
      some (Rendered.circleR s (|s.1 - e.1| + |s.2 - e.2|))) ∧
    draw_shape "circle" (0, 0) (3, 4) = some (Rendered.circleR (0, 0) 7) := by
  constructor
  · intro s e
    unfold draw_shape manhattanLength
    simp only [String.reduceEq, reduceIte]
  · unfold draw_shape manhattanLength
    simp only [String.reduceEq, reduceIte]
    norm_num

/-- C7: while the canvas is Idle (`drawing` is false), a mouse move or
a mouse release leaves the whole canvas state, in particular the
shapes sequence, unchanged, and the state stays Idle. -/
theorem idle_move_release_noop (c : Canvas) (pos : Point) (h : c.drawing = false) :
    mouseMoveEvent c pos = c ∧ mouseReleaseEvent c pos = c := by
  unfold mouseMoveEvent mouseReleaseEvent
  rw [h]
  simp

/-- C7 witness: the theorem applied to a concrete Idle canvas. -/
theorem idle_move_release_noop_witness :
    (Canvas.mk [] "line" false none none).drawing = false ∧
    (mouseMoveEvent (Canvas.mk [] "line" false none none) (1, 2)
        = Canvas.mk [] "line" false none none ∧
      mouseReleaseEvent (Canvas.mk [] "line" false none none) (1, 2)
        = Canvas.mk [] "line" false none none) :=
  ⟨rfl, idle_move_release_noop (Canvas.mk [] "line" false none none) (1, 2) rfl⟩

/-- C10: a left-button press while already Drawing commits nothing
(the shapes sequence is unchanged), keeps the state Drawing, and
replaces the recorded start point with the snap of the new press
position. -/
theorem press_while_drawing_discards (c : Canvas) (pos : Point) (_h : c.drawing = true) :
    (mousePressEvent c true pos).shapes = c.shapes ∧
    (mousePressEvent c true pos).drawing = true ∧
    (mousePressEvent c true pos).start_point = some (snap pos) := by
  unfold mousePressEvent
  simp

/-- C10 witness: the theorem applied to a concrete Drawing canvas. -/
theorem press_while_drawing_discards_witness :
    (Canvas.mk [] "line" true (some (0, 0)) none).drawing = true ∧
    ((mousePressEvent (Canvas.mk [] "line" true (some (0, 0)) none) true (30, 10)).shapes
        = (Canvas.mk [] "line" true (some (0, 0)) none).shapes ∧
      (mousePressEvent (Canvas.mk [] "line" true (some (0, 0)) none) true (30, 10)).drawing
        = true ∧
      (mousePressEvent (Canvas.mk [] "line" true (some (0, 0)) none) true (30, 10)).start_point
        = some (snap (30, 10))) :=
  ⟨rfl, press_while_drawing_discards (Canvas.mk [] "line" true (some (0, 0)) none) (30, 10) rfl⟩

/-- Each record written by `save_hcad` parses back to its shape, so
the load loop rebuilds the saved list behind any accumulator. -/
theorem loadGo_save (acc : List Shape) (shapes : List Shape) :
    loadGo acc (save_hcad shapes) = (acc ++ shapes, true) := by
  induction shapes generalizing acc with
  | nil => simp [save_hcad, loadGo]
  | cons sh rest ih =>
    obtain ⟨t, ⟨sx, sy⟩, ⟨tx, ty⟩⟩ := sh
    have h1 : save_hcad ((t, (sx, sy), (tx, ty)) :: rest)
        = { tool := some t, start := some [sx, sy], «end» := some [tx, ty] }
            :: save_hcad rest := rfl
    rw [h1]
    show loadGo (acc ++ [(t, (sx, sy), (tx, ty))]) (save_hcad rest) = _
    rw [ih]
    simp

/-- C4: serialize then deserialize is the identity on documents: for
any canvas and any shape list, loading the saved records succeeds and
replaces the document with exactly that list, preserving order, tools
and both coordinates of every point. -/
theorem serialize_round_trip (c : Canvas) (shapes : List Shape) :
    load_hcad c (save_hcad shapes) = ({ c with shapes := shapes }, true) := by
  unfold load_hcad
  rw [loadGo_save]
  simp

/-- The load loop always produces the parsed initial segment of the
records, and succeeds exactly when every record parses. -/
theorem loadGo_spec (acc : List Shape) (records : List Record) :
    loadGo acc records
      = (acc ++ parsedInit records, records.all fun r => (parseRecord r).isSome) := by
  induction records generalizing acc with
  | nil => simp [loadGo, parsedInit]
  | cons r rs ih =>
    cases hp : parseRecord r with
    | some s => simp [loadGo, parsedInit, hp, ih]
    | none => simp [loadGo, parsedInit, hp]

/-- C1 counterexample: with a prior document of one shape, loading a
single record that lacks the "end" field fails, but the prior
document is not preserved: the shapes sequence has already been
cleared when the failure occurs. -/
theorem load_missing_end_counterexample :
    (load_hcad (Canvas.mk [("line", (0, 0), (20, 20))] "line" false none none)
        [{ tool := some "line", start := some [0, 0], «end» := none }]).2 = false ∧
    (load_hcad (Canvas.mk [("line", (0, 0), (20, 20))] "line" false none none)
        [{ tool := some "line", start := some [0, 0], «end» := none }]).1.shapes = [] ∧
    (Canvas.mk [("line", (0, 0), (20, 20))] "line" false none none).shapes ≠ [] :=
  ⟨rfl, rfl, by simp⟩

/-- C1 (amended): `load_hcad` first clears the document
unconditionally, then appends records one by one, so a malformed
record (one missing a required field, or with a coordinate list of a
length other than 0 or 2) raises an error that leaves the document
holding the parsed initial segment of the records — the prior
document is never preserved on failure; the tool string is not
validated; on success the document is replaced by exactly the parsed
records. -/
theorem load_clears_then_appends (c : Canvas) (records : List Record) :
    load_hcad c records
      = ({ c with shapes := parsedInit records },
          records.all fun r => (parseRecord r).isSome) := by
  unfold load_hcad
  rw [loadGo_spec]
  simp

/-- C6: the radius written to the exported SVG for a circle shape is
the true Euclidean distance between start and end: it is the
nonnegative real whose square is (x2 - x1)^2 + (y2 - y1)^2, it is the
value placed in the circle element, and for start (0, 0) and end
(3, 4) the exported radius is 5. -/
theorem export_circle_radius_euclidean :
    (∀ s e : Point, 0 ≤ exportRadius s e ∧
      exportRadius s e ^ 2 = (((e.1 - s.1) ^ 2 + (e.2 - s.2) ^ 2 : ℚ) : ℝ)) ∧
    (∀ s e : Point, export_svg [("circle", s, e)]
      = [SvgElem.circleE s (exportRadius s e)]) ∧
    export_svg [("circle", (0, 0), (3, 4))] = [SvgElem.circleE (0, 0) 5] := by
  have hpt : ∀ s e : Point, export_svg [("circle", s, e)]
      = [SvgElem.circleE s (exportRadius s e)] := fun s e => rfl
  refine ⟨fun s e => ⟨Real.sqrt_nonneg _, ?_⟩, hpt, ?_⟩
  · unfold exportRadius
    rw [Real.sq_sqrt]
    positivity
  · rw [hpt]
    have h5 : exportRadius (0, 0) (3, 4) = 5 := by
      unfold exportRadius
      rw [show ((((3, 4) : Point).1 - ((0, 0) : Point).1) ^ 2
            + (((3, 4) : Point).2 - ((0, 0) : Point).2) ^ 2 : ℚ) = 25 by norm_num]
      rw [show ((25 : ℚ) : ℝ) = 5 ^ 2 by norm_num]
      exact Real.sqrt_sq (by norm_num)
    rw [h5]

/-- Enabling a plugin does not change the widget registry. -/
theorem enable_widgets_eq (L : Loader) (n : String) :
    (enable_plugin L n).plugin_widgets = L.plugin_widgets := by
  unfold enable_plugin
  split_ifs <;> rfl

/-- Disabling a plugin does not change the widget registry. -/
theorem disable_widgets_eq (L : Loader) (n : String) :
    (disable_plugin L n).plugin_widgets = L.plugin_widgets := by
  unfold disable_plugin
  split_ifs <;> rfl

/-- Membership in the tab container after an enable call. -/
theorem mem_enable_tabs (L : Loader) (n m : String) :
    Tab.plug m ∈ (enable_plugin L n).tabs ↔
      Tab.plug m ∈ L.tabs ∨ (m = n ∧ n ∈ L.plugin_widgets) := by
  unfold enable_plugin
  split_ifs with hw ht
  · constructor
    · exact Or.inl
    · rintro (h | ⟨rfl, h2⟩)
      · exact h
      · exact ht
  · simp [List.mem_append, hw]
  · simp [hw]

/-- Enabling preserves the invariant that each plugin widget occurs
at most once in the tab container. -/
theorem enable_count_le (L : Loader) (n : String)
    (h : ∀ m, L.tabs.count (Tab.plug m) ≤ 1) :
    ∀ m, (enable_plugin L n).tabs.count (Tab.plug m) ≤ 1 := by
  intro m
  unfold enable_plugin
  split_ifs with hw ht
  · exact h m
  · rw [List.count_append]
    by_cases hmn : m = n
    · subst hmn
      rw [List.count_eq_zero_of_not_mem ht]
      simp
    · have hz : List.count (Tab.plug m) [Tab.plug n] = 0 := by
        simp [hmn]
      rw [hz]
      simpa using h m
  · exact h m

/-- Disabling preserves the at-most-one-occurrence invariant. -/
theorem disable_count_le (L : Loader) (n : String)
    (h : ∀ m, L.tabs.count (Tab.plug m) ≤ 1) :
    ∀ m, (disable_plugin L n).tabs.count (Tab.plug m) ≤ 1 := by
  intro m
  unfold disable_plugin
  split_ifs with hw
  · exact le_trans ((List.erase_sublist _ _).count_le _) (h m)
  · exact h m

/-- Membership in the tab container after a disable call, assuming no
duplicate tabs. -/
theorem mem_disable_tabs (L : Loader) (n m : String)
    (hc : L.tabs.count (Tab.plug n) ≤ 1) :
    Tab.plug m ∈ (disable_plugin L n).tabs ↔
      Tab.plug m ∈ L.tabs ∧ ¬(m = n ∧ n ∈ L.plugin_widgets) := by
  unfold disable_plugin
  split_ifs with hw
  · by_cases hmn : m = n
    · subst hmn
      constructor
      · intro hmem
        exfalso
        have h1 : 0 < (L.tabs.erase (Tab.plug m)).count (Tab.plug m) :=
          List.count_pos_iff.mpr hmem
        have h2 : (L.tabs.erase (Tab.plug m)).count (Tab.plug m)
            = L.tabs.count (Tab.plug m) - 1 := List.count_erase_self _ _
        omega
      · rintro ⟨hmem, hne⟩
        exact absurd ⟨rfl, hw⟩ hne
    · rw [List.mem_erase_of_ne (by simp [hmn])]
      simp [hmn]
  · simp [hw]

/-- The reconciliation loop never changes the widget registry. -/
theorem reconcile_widgets_eq (names : List String) (L : Loader) (enabled : List String) :
    (reconcile L names enabled).plugin_widgets = L.plugin_widgets := by
  induction names generalizing L with
  | nil => rfl
  | cons n rest ih =>
    show (reconcile (if n ∈ enabled then enable_plugin L n else disable_plugin L n)
      rest enabled).plugin_widgets = L.plugin_widgets
    split_ifs with he
    · rw [ih, enable_widgets_eq]
    · rw [ih, disable_widgets_eq]

/-- A plugin tab is in the container after the reconciliation loop
exactly when it survived the loop or the loop attached it: it was
there before and the loop did not disable it, or its name was visited
with a widget and is in the enabled list. -/
theorem mem_reconcile_tabs (names : List String) (L : Loader) (enabled : List String)
    (hc : ∀ m, L.tabs.count (Tab.plug m) ≤ 1) (m : String) :
    Tab.plug m ∈ (reconcile L names enabled).tabs ↔
      ((Tab.plug m ∈ L.tabs ∧ ¬(m ∈ names ∧ m ∈ L.plugin_widgets ∧ m ∉ enabled)) ∨
        (m ∈ names ∧ m ∈ L.plugin_widgets ∧ m ∈ enabled)) := by
  induction names generalizing L with
  | nil => simp [reconcile]
  | cons n rest ih =>
    show Tab.plug m ∈ (reconcile
        (if n ∈ enabled then enable_plugin L n else disable_plugin L n)
        rest enabled).tabs ↔ _
    split_ifs with he
    · rw [ih (enable_plugin L n) (enable_count_le L n hc),
        enable_widgets_eq, mem_enable_tabs]
      by_cases hmn : m = n
      · subst hmn
        simp only [List.mem_cons, true_or, eq_self_iff_true]
        tauto
      · simp only [List.mem_cons, hmn, false_or, false_and, or_false]
    · rw [ih (disable_plugin L n) (disable_count_le L n hc),
        disable_widgets_eq, mem_disable_tabs L n m (hc n)]
      by_cases hmn : m = n
      · subst hmn
        simp only [List.mem_cons, true_or, eq_self_iff_true]
        tauto
      · simp only [List.mem_cons, hmn, false_or, false_and, or_false]
        tauto

/-- C5: after startup reconciliation the set of plugin tabs attached
to the host tab container is exactly the set of loaded plugins that
registered a UI widget and whose names are in the persisted
enabled-modules list. -/
theorem startup_reconciliation (plugins widgets enabled : List String) (name : String) :
    Tab.plug name ∈ (startup plugins widgets enabled).tabs ↔
      name ∈ plugins ∧ name ∈ widgets ∧ name ∈ enabled := by
  unfold startup
  rw [mem_reconcile_tabs]
  · simp
  · intro m
    simp

/-- C8: plugin enable and disable are idempotent on the tab container:
enabling twice equals enabling once; enabling twice a plugin with a
widget and no attached tab yields exactly one tab for it; disabling a
plugin whose tab is not attached, or whose name has no widget, leaves
the loader state unchanged. -/
theorem enable_disable_idempotent :
    (∀ L : Loader, ∀ n : String,
      enable_plugin (enable_plugin L n) n = enable_plugin L n) ∧
    (∀ L : Loader, ∀ n : String, n ∈ L.plugin_widgets → Tab.plug n ∉ L.tabs →
      (enable_plugin (enable_plugin L n) n).tabs.count (Tab.plug n) = 1) ∧
    (∀ L : Loader, ∀ n : String, Tab.plug n ∉ L.tabs → disable_plugin L n = L) ∧
    (∀ L : Loader, ∀ n : String, n ∉ L.plugin_widgets → disable_plugin L n = L) := by
  have henable : ∀ L : Loader, ∀ n : String, n ∈ L.plugin_widgets →
      Tab.plug n ∉ L.tabs →
      enable_plugin L n = { L with tabs := L.tabs ++ [Tab.plug n] } := by
    intro L n hw ht
    unfold enable_plugin
    rw [if_pos hw, if_neg ht]
  refine ⟨?_, ?_, ?_, ?_⟩
  · intro L n
    by_cases hw : n ∈ L.plugin_widgets
    · by_cases ht : Tab.plug n ∈ L.tabs
      · unfold enable_plugin
        rw [if_pos hw, if_pos ht, if_pos hw, if_pos ht]
      · rw [henable L n hw ht]
        unfold enable_plugin
        rw [if_pos hw, if_pos (by simp : Tab.plug n ∈ L.tabs ++ [Tab.plug n])]
    · unfold enable_plugin
      rw [if_neg hw, if_neg hw]
  · intro L n hw ht
    rw [henable L n hw ht]
    have h2 : enable_plugin { L with tabs := L.tabs ++ [Tab.plug n] } n
        = { L with tabs := L.tabs ++ [Tab.plug n] } := by
      unfold enable_plugin
      rw [if_pos hw, if_pos (by simp : Tab.plug n ∈ L.tabs ++ [Tab.plug n])]
    rw [h2]
    show (L.tabs ++ [Tab.plug n]).count (Tab.plug n) = 1
    rw [List.count_append, List.count_eq_zero_of_not_mem ht]
    simp
  · intro L n ht
    unfold disable_plugin
    split_ifs with hw
    · rw [List.erase_of_not_mem ht]
    · rfl
  · intro L n hw
    unfold disable_plugin
    rw [if_neg hw]

/-- C8 witness: the theorem applied to a concrete loader holding one
plugin with a widget and only the core tab attached. -/
theorem enable_disable_idempotent_witness :
    ("a" ∈ (Loader.mk ["a"] ["a"] [Tab.core]).plugin_widgets ∧
      Tab.plug "a" ∉ (Loader.mk ["a"] ["a"] [Tab.core]).tabs ∧
      (enable_plugin (enable_plugin (Loader.mk ["a"] ["a"] [Tab.core]) "a")
        "a").tabs.count (Tab.plug "a") = 1) ∧
    (Tab.plug "b" ∉ (Loader.mk ["a"] ["a"] [Tab.core]).tabs ∧
      disable_plugin (Loader.mk ["a"] ["a"] [Tab.core]) "b"
        = Loader.mk ["a"] ["a"] [Tab.core]) :=
  ⟨⟨by decide, by decide,
      enable_disable_idempotent.2.1 (Loader.mk ["a"] ["a"] [Tab.core]) "a"
        (by decide) (by decide)⟩,
    ⟨by decide,
      enable_disable_idempotent.2.2.1 (Loader.mk ["a"] ["a"] [Tab.core]) "b"
        (by decide)⟩⟩

end HelioCAD
